import Mathlib

/-!
Verification of the vella client-side state-synchronization engine.

This file is a shallow embedding, in Lean 4, of the state-synchronization
and world-streaming core of the vella game client:

* the per-class entity reconciler (`WorldGameManager.updateState` and the
  `create/update/remove` methods for players, zombies and projectiles,
  from `frontend/js/world.js`),
* the render-frame interpolation step (`WorldGameManager.update`,
  `Phaser.Math.Linear`),
* the chunk streamer with its pre-scene-ready buffer
  (`WorldGameManager.loadChunk` and the drain in `create`),
* the input sampler (`WorldGameManager.sendInput` together with the touch
  `DualJoystick`),
* the reconnecting WebSocket transport (`network/WebSocketManager.js`).

Modelling conventions:

* JavaScript numbers are embedded as exact rationals `ℚ`.  The opaque
  float functions `Math.sqrt`, `Math.cos`, `Math.sin`, `Math.atan2` and the
  constant `Math.PI / 2` have no exact rational counterpart; they are
  threaded through as an explicit record of symbolic functions
  (`MathFns`), and rotation values produced by `atan2` are kept as
  symbolic `AngleVal` terms.  No claim below depends on their numeric
  values.
* The JavaScript objects `this.players`, `this.zombies`,
  `this.projectiles` (integer-keyed maps) are embedded as association
  lists of key-value pairs; `Store.set` replaces the value at an existing
  key in place and appends a fresh key, matching JS object semantics.
* The Phaser scene-graph backend is out of scope (it only consumes entity
  position / rotation / alpha); sprites are embedded by the state the
  core writes into them: position, rotation, alpha, plus the secondary
  visuals (name label, health bar, indicator, armor ring) the core
  creates and destroys.  Internal animation-clip state of the backend and
  pure drawing-path contents (the aim line) are not part of the embedded
  state.
-/

namespace Vella

/-! ## Keyed stores (JS objects keyed by entity id) -/

/-- Association-list store standing for a JS object keyed by an integer
entity id (`this.players`, `this.zombies`, `this.projectiles`,
`this.chunks`). -/
abbrev Store (κ ε : Type) := List (κ × ε)

namespace Store

/-- Model of `store[id]` — first (and in JS, only) entry with the given key. -/
def find {κ ε : Type} [DecidableEq κ] : Store κ ε → κ → Option ε
  | [], _ => none
  | (k, v) :: t, i => if k = i then some v else find t i

/-- Model of `store[id] = v` — replace the value at an existing key in place,
append a fresh key at the end (JS object assignment). -/
def set {κ ε : Type} [DecidableEq κ] : Store κ ε → κ → ε → Store κ ε
  | [], i, v => [(i, v)]
  | (k, w) :: t, i, v => if k = i then (i, v) :: t else (k, w) :: set t i v

/-- Keys of the store, in iteration order. -/
def keys {κ ε : Type} [DecidableEq κ] (s : Store κ ε) : List κ := s.map Prod.fst

theorem find_set_self {κ ε : Type} [DecidableEq κ] (s : Store κ ε) (i : κ) (v : ε) :
    (s.set i v).find i = some v := by
  induction s with
  | nil => simp [set, find]
  | cons h t ih =>
    obtain ⟨k, w⟩ := h
    by_cases hk : k = i <;> simp [set, find, hk, ih]

theorem find_set_ne {κ ε : Type} [DecidableEq κ] (s : Store κ ε) (i j : κ) (v : ε) (hij : j ≠ i) :
    (s.set i v).find j = s.find j := by
  induction s with
  | nil =>
    have : ¬ i = j := fun h => hij h.symm
    simp [set, find, this]
  | cons h t ih =>
    obtain ⟨k, w⟩ := h
    by_cases hk : k = i
    · have h1 : ¬ i = j := fun h => hij h.symm
      simp [set, find, hk, h1]
    · simp only [set, hk, if_false, find]
      by_cases hkj : k = j <;> simp [hkj, ih]

theorem mem_of_find_eq_some {κ ε : Type} [DecidableEq κ] {s : Store κ ε} {i : κ} {v : ε}
    (h : s.find i = some v) : (i, v) ∈ s := by
  induction s with
  | nil => simp [find] at h
  | cons hd t ih =>
    obtain ⟨k, w⟩ := hd
    by_cases hk : k = i
    · subst hk
      simp [find] at h
      simp [h]
    · simp [find, hk] at h
      simp [ih h]

theorem find_isSome_iff_exists_mem {κ ε : Type} [DecidableEq κ] (s : Store κ ε) (i : κ) :
    (s.find i).isSome = true ↔ ∃ v, (i, v) ∈ s := by
  induction s with
  | nil => simp [find]
  | cons hd t ih =>
    obtain ⟨k, w⟩ := hd
    by_cases hk : k = i
    · subst hk
      simp [find]
    · simp only [find, hk, if_false, List.mem_cons, ih]
      constructor
      · rintro ⟨v, hv⟩
        exact ⟨v, Or.inr hv⟩
      · rintro ⟨v, hv | hv⟩
        · cases hv
          simp at hk
        · exact ⟨v, hv⟩

theorem exists_mem_set_self {κ ε : Type} [DecidableEq κ] (s : Store κ ε) (i : κ) (v : ε) :
    ∃ w, (i, w) ∈ s.set i v :=
  ⟨v, mem_of_find_eq_some (find_set_self s i v)⟩

theorem mem_set_iff_of_ne {κ ε : Type} [DecidableEq κ] (s : Store κ ε) (i j : κ) (v w : ε)
    (hij : j ≠ i) : (j, w) ∈ s.set i v ↔ (j, w) ∈ s := by
  induction s with
  | nil =>
    simp only [set, List.mem_singleton, List.not_mem_nil, iff_false]
    intro hc
    exact hij (congrArg Prod.fst hc)
  | cons hd t ih =>
    obtain ⟨k, u⟩ := hd
    by_cases hk : k = i
    · simp only [set, hk, if_true, List.mem_cons]
      constructor
      · rintro (h1 | h1)
        · exact absurd (congrArg Prod.fst h1) hij
        · exact Or.inr h1
      · rintro (h1 | h1)
        · cases h1
          exact absurd rfl hij
        · exact Or.inr h1
    · simp only [set, hk, if_false, List.mem_cons, ih]

theorem exists_mem_set_of_exists_mem {κ ε : Type} [DecidableEq κ] (s : Store κ ε) (i j : κ) (v : ε)
    (h : ∃ w, (j, w) ∈ s) : ∃ w, (j, w) ∈ s.set i v := by
  by_cases hij : j = i
  · subst hij
    exact exists_mem_set_self s j v
  · obtain ⟨w, hw⟩ := h
    exact ⟨w, (mem_set_iff_of_ne s i j v w hij).mpr hw⟩

/-- Replacing a key by the value it already holds (first occurrence) is a
no-op. -/
theorem set_find_self {κ ε : Type} [DecidableEq κ] (s : Store κ ε) (i : κ) (v : ε)
    (h : s.find i = some v) : s.set i v = s := by
  induction s with
  | nil => simp [find] at h
  | cons hd t ih =>
    obtain ⟨k, w⟩ := hd
    by_cases hk : k = i
    · subst hk
      simp [find] at h
      simp [set, h]
    · simp [find, hk] at h
      simp [set, hk, ih h]

theorem keys_set {κ ε : Type} [DecidableEq κ] (s : Store κ ε) (i : κ) (v : ε) :
    (s.set i v).keys =
      if (s.find i).isSome = true then s.keys else s.keys ++ [i] := by
  induction s with
  | nil => simp [set, keys, find]
  | cons hd t ih =>
    obtain ⟨k, w⟩ := hd
    by_cases hk : k = i
    · subst hk
      simp [set, keys, find]
    · simp only [set, hk, if_false, keys, List.map_cons, find]
      simp only [keys] at ih
      by_cases hs : (find t i).isSome = true <;> simp [hs] at ih ⊢ <;> simp [ih]

theorem keys_nodup_set {κ ε : Type} [DecidableEq κ] (s : Store κ ε) (i : κ) (v : ε)
    (h : s.keys.Nodup) : (s.set i v).keys.Nodup := by
  rw [keys_set]
  by_cases hs : (s.find i).isSome = true
  · simp [hs, h]
  · rw [if_neg hs]
    rw [List.nodup_append]
    refine ⟨h, List.nodup_singleton i, ?_⟩
    intro a ha hb
    simp only [List.mem_singleton] at hb
    subst hb
    rw [find_isSome_iff_exists_mem] at hs
    push_neg at hs
    simp only [keys, List.mem_map] at ha
    obtain ⟨⟨k, u⟩, hmem, hk⟩ := ha
    cases hk
    exact hs u hmem

theorem find_eq_none_of_not_mem_keys {κ ε : Type} [DecidableEq κ] (s : Store κ ε) (i : κ)
    (h : i ∉ s.keys) : s.find i = none := by
  induction s with
  | nil => simp [find]
  | cons hd t ih =>
    obtain ⟨k, w⟩ := hd
    simp only [keys, List.map_cons, List.mem_cons] at h
    push_neg at h
    have h1 : ¬ k = i := fun hc => h.1 hc.symm
    simp [find, h1, ih (by simpa [keys] using h.2)]

/-- Computing `find` through a `filter`, for stores with distinct keys. -/
theorem find_filter {κ ε : Type} [DecidableEq κ] (p : κ × ε → Bool) (s : Store κ ε) (i : κ)
    (h : s.keys.Nodup) :
    Store.find (s.filter p) i =
      match s.find i with
      | some v => if p (i, v) then some v else none
      | none => none := by
  induction s with
  | nil => simp [find]
  | cons hd t ih =>
    obtain ⟨k, w⟩ := hd
    simp only [keys, List.map_cons, List.nodup_cons] at h
    by_cases hk : k = i
    · by_cases hp : p (k, w) = true
      · rw [hk] at hp
        simp [List.filter_cons, hp, find, hk]
      · have hnk : k ∉ Store.keys (t.filter p) := by
          intro hmem
          refine h.1 ?_
          simp only [keys, List.mem_map] at hmem ⊢
          obtain ⟨e, he, hei⟩ := hmem
          exact ⟨e, List.mem_of_mem_filter he, hei⟩
        have hn : Store.find (t.filter p) i = none := by
          rw [← hk]
          exact find_eq_none_of_not_mem_keys _ _ hnk
        simp only [List.filter_cons, hp, Bool.false_eq_true, if_false, find, hk,
          if_true]
        rw [hk] at hp
        simp [hn, hp]
    · by_cases hp : p (k, w) = true
      · simp only [List.filter_cons, hp, if_true, find, hk, if_false]
        exact ih (by simpa [keys] using h.2)
      · simp only [List.filter_cons, hp, Bool.false_eq_true, if_false, find, hk]
        exact ih (by simpa [keys] using h.2)

theorem filter_keys_nodup {κ ε : Type} [DecidableEq κ] (p : κ × ε → Bool) (s : Store κ ε)
    (h : s.keys.Nodup) : Store.keys (s.filter p) |>.Nodup := by
  induction s with
  | nil => simp [keys]
  | cons hd t ih =>
    obtain ⟨k, w⟩ := hd
    simp only [keys, List.map_cons, List.nodup_cons] at h
    by_cases hp : p (k, w) = true
    · simp only [List.filter_cons, hp, if_true, keys, List.map_cons,
        List.nodup_cons]
      refine ⟨?_, ih h.2⟩
      intro hmem
      refine h.1 ?_
      simp only [keys, List.mem_map] at hmem ⊢
      obtain ⟨e, he, hei⟩ := hmem
      exact ⟨e, List.mem_of_mem_filter he, hei⟩
    · simp only [List.filter_cons, hp, Bool.false_eq_true, if_false]
      exact ih h.2

end Store

/-! ## Snapshot data (elements of the server's per-class lists) -/

/-- Symbolic stand-ins for the JS `Math` float functions used by the core
(`Math.sqrt`, `Math.cos`, `Math.sin`, `Math.atan2`) and for `Math.PI / 2`.
They have no exact rational counterpart; every theorem below holds for an
arbitrary interpretation (hypotheses on them are stated explicitly where a
claim needs one, e.g. `0 < sqrt 2`). -/
structure MathFns where
  sqrt : ℚ → ℚ
  cos : ℚ → ℚ
  sin : ℚ → ℚ
  atan2 : ℚ → ℚ → ℚ
  piDiv2 : ℚ

/-- One element of `state.players` as read by
`createPlayer`/`updatePlayer` (`world.js`): `id`, `x`, `y`, `hp`,
`max_hp`, `is_dead`, `shooting`, `aim_angle`, `armor`.  Fields the core
only forwards to the HUD (`ammo`, `username`, …) are omitted. -/
structure PlayerData where
  id : Int
  x : ℚ
  y : ℚ
  hp : ℚ
  maxHp : ℚ
  isDead : Bool
  shooting : Bool
  aimAngle : ℚ
  armor : ℚ
deriving DecidableEq

/-- Model of `data.type` of a zombie; `other` covers any string outside the
`sizeMap` of `createZombie`. -/
inductive ZombieKind
  | normal
  | fast
  | tank
  | boss
  | other
deriving DecidableEq

/-- One element of `state.zombies` as read by
`createZombie`/`updateZombie`. -/
structure ZombieData where
  id : Int
  x : ℚ
  y : ℚ
  hp : ℚ
  maxHp : ℚ
  kind : ZombieKind
deriving DecidableEq

/-- One element of `state.projectiles` as read by
`createProjectile`/`updateProjectile`. -/
structure ProjectileData where
  id : Int
  x : ℚ
  y : ℚ
  ownerId : Int
deriving DecidableEq

/-! ## Entity records held in the class stores

A Phaser scene object is embedded by the state the core writes into it:
position, rotation and alpha (the spec's declared sprite interface).
Animation-clip selection (`sprite.play`) and drawing-path contents
(`aimLine`) belong to the out-of-scope rendering backend. -/

/-- Embedded Phaser sprite: position, rotation, alpha. -/
structure SpriteState where
  x : ℚ
  y : ℚ
  rotation : ℚ
  alpha : ℚ
deriving DecidableEq

/-- Embedded name label (`nameText`): position and alpha. -/
structure TextState where
  x : ℚ
  y : ℚ
  alpha : ℚ
deriving DecidableEq

/-- Embedded health-bar graphics: position plus the values last drawn by
`drawHealthBar` (hp, maxHp, width determine the drawn pixels). -/
structure HealthBarState where
  x : ℚ
  y : ℚ
  hp : ℚ
  maxHp : ℚ
  width : ℚ
deriving DecidableEq

/-- Embedded armor ring (`player.armorRing`): position and visibility. -/
structure ArmorRingState where
  x : ℚ
  y : ℚ
  visible : Bool
deriving DecidableEq

/-- Embedded ground indicator circle under a zombie. -/
structure IndicatorState where
  x : ℚ
  y : ℚ
deriving DecidableEq

/-- Model of `this.players[id]` — `{sprite, nameText, healthBar, aimLine,
armorRing?, data, targetX, targetY}` (`world.js` `createPlayer`). -/
structure PlayerEntity where
  sprite : SpriteState
  nameText : TextState
  healthBar : HealthBarState
  armorRing : Option ArmorRingState
  data : PlayerData
  targetX : ℚ
  targetY : ℚ
deriving DecidableEq

/-- Model of `this.zombies[id]` — `{sprite, indicator, healthBar, data, size,
targetX, targetY}` (`world.js` `createZombie`). -/
structure ZombieEntity where
  sprite : SpriteState
  indicator : IndicatorState
  healthBar : Option HealthBarState
  size : ℚ
  data : ZombieData
  targetX : ℚ
  targetY : ℚ
deriving DecidableEq

/-- Model of `this.projectiles[id]` — `{sprite, data}` (`world.js`
`createProjectile`). -/
structure ProjectileEntity where
  sprite : SpriteState
  data : ProjectileData
deriving DecidableEq

/-- The full snapshot message consumed by `updateState` (the parts that
touch the three entity stores; `turrets`, `open_gates`, `ground_drops`,
`inventory`, `clothing` and `events` act on disjoint state and are not
modelled). -/
structure WorldSnapshot where
  players : List PlayerData
  zombies : List ZombieData
  projectiles : List ProjectileData
deriving DecidableEq

/-! ## WorldGameManager: entity create / update / remove (`world.js`) -/

namespace WorldGameManager

/-- Model of `sizeMap = {normal: 48, fast: 44, tank: 64, boss: 80}`;
`sizeMap[data.type] || 48`. -/
def zombieDisplaySize : ZombieKind → ℚ
  | .normal => 48
  | .fast => 44
  | .tank => 64
  | .boss => 80
  | .other => 48

/-- Entity record built by `createPlayer(data)`: sprite at the snapshot
position (no interpolation on birth), name label at `(x, y - 28)`, health
bar drawn with width 40 at the graphics origin, no armor ring, `targetX/Y`
initialised to the snapshot position.  (`createPlayer` applies neither
alpha, nor rotation, nor the armor ring — those are first derived by
`updatePlayer`.) -/
def newPlayerEntity (d : PlayerData) : PlayerEntity :=
  { sprite := { x := d.x, y := d.y, rotation := 0, alpha := 1 }
    nameText := { x := d.x, y := d.y - 28, alpha := 1 }
    healthBar := { x := 0, y := 0, hp := d.hp, maxHp := d.maxHp, width := 40 }
    armorRing := none
    data := d
    targetX := d.x
    targetY := d.y }

/-- Body of `updatePlayer(data)` once the entity is found: set
`targetX/Y`, redraw the health bar, set sprite and label alpha from
`is_dead`, rotate the sprite to `aim_angle` unless dead, create/update or
hide the armor ring, store `data`. -/
def updatePlayerEntity (p : PlayerEntity) (d : PlayerData) : PlayerEntity :=
  let alpha : ℚ := if d.isDead then 3/10 else 1
  let sprite1 := { p.sprite with alpha := alpha }
  let sprite2 :=
    if d.isDead then sprite1 else { sprite1 with rotation := d.aimAngle }
  let ring :=
    if 0 < d.armor ∧ d.isDead = false then
      some { x := sprite2.x, y := sprite2.y, visible := true }
    else
      match p.armorRing with
      | some r => some { r with visible := false }
      | none => none
  { p with
    targetX := d.x
    targetY := d.y
    healthBar := { p.healthBar with hp := d.hp, maxHp := d.maxHp, width := 40 }
    sprite := sprite2
    nameText := { p.nameText with alpha := alpha }
    armorRing := ring
    data := d }

/-- Model of `createPlayer(data)` on the store. -/
def createPlayer (s : Store Int PlayerEntity) (d : PlayerData) :
    Store Int PlayerEntity :=
  s.set d.id (newPlayerEntity d)

/-- Model of `updatePlayer(data)` on the store: `if (!player) return;`. -/
def updatePlayer (s : Store Int PlayerEntity) (d : PlayerData) :
    Store Int PlayerEntity :=
  match s.find d.id with
  | none => s
  | some p => s.set d.id (updatePlayerEntity p d)

/-- Entity record built by `createZombie(data)`: indicator circle and
sprite at the snapshot position, health bar (tank/boss only) drawn and
positioned, `size = displaySize / 2`, targets initialised. -/
def newZombieEntity (d : ZombieData) : ZombieEntity :=
  let displaySize := zombieDisplaySize d.kind
  { sprite := { x := d.x, y := d.y, rotation := 0, alpha := 1 }
    indicator := { x := d.x, y := d.y }
    healthBar :=
      if d.kind = .tank ∨ d.kind = .boss then
        some { x := d.x - displaySize / 2, y := d.y - displaySize / 2 - 8,
               hp := d.hp, maxHp := d.maxHp, width := displaySize }
      else none
    size := displaySize / 2
    data := d
    targetX := d.x
    targetY := d.y }

/-- Model of `createZombie(data)`: `if (!this.scene) return;` then build the
entity. -/
def createZombie (ready : Bool) (s : Store Int ZombieEntity) (d : ZombieData) :
    Store Int ZombieEntity :=
  if ready = false then s else s.set d.id (newZombieEntity d)

/-- Body of `updateZombie(data)` once the entity is found: rotate toward
the movement direction when the position delta exceeds 0.5 on an axis,
set `targetX/Y`, redraw the health bar with width `size * 2`, store
`data`. -/
def updateZombieEntity (M : MathFns) (z : ZombieEntity) (d : ZombieData) :
    ZombieEntity :=
  let dx := d.x - z.data.x
  let dy := d.y - z.data.y
  let sprite1 :=
    if 1/2 < |dx| ∨ 1/2 < |dy| then
      { z.sprite with rotation := M.atan2 dy dx }
    else z.sprite
  { z with
    sprite := sprite1
    targetX := d.x
    targetY := d.y
    healthBar :=
      match z.healthBar with
      | some hb =>
          some { hb with hp := d.hp, maxHp := d.maxHp, width := z.size * 2 }
      | none => none
    data := d }

/-- Model of `updateZombie(data)` on the store: an unknown id falls through to
`createZombie(data)` (implicit create). -/
def updateZombie (M : MathFns) (ready : Bool) (s : Store Int ZombieEntity)
    (d : ZombieData) : Store Int ZombieEntity :=
  match s.find d.id with
  | none => createZombie ready s d
  | some z => s.set d.id (updateZombieEntity M z d)

/-- Entity record built by `createProjectile(data)`: a circle sprite at
the snapshot position. -/
def newProjectileEntity (d : ProjectileData) : ProjectileEntity :=
  { sprite := { x := d.x, y := d.y, rotation := 0, alpha := 1 }
    data := d }

/-- Model of `createProjectile(data)` on the store (the local shot sound is a
non-state side effect). -/
def createProjectile (s : Store Int ProjectileEntity) (d : ProjectileData) :
    Store Int ProjectileEntity :=
  s.set d.id (newProjectileEntity d)

/-- Model of `updateProjectile(data)`: `if (!proj) return;` else move the sprite to
the snapshot position and store `data` (projectiles are snapped, not
interpolated). -/
def updateProjectile (s : Store Int ProjectileEntity) (d : ProjectileData) :
    Store Int ProjectileEntity :=
  match s.find d.id with
  | none => s
  | some pr =>
      s.set d.id
        { pr with sprite := { pr.sprite with x := d.x, y := d.y }, data := d }

end WorldGameManager


/-! ## Chunk streaming data (`world.js` chunk management) -/

/-- Model of `res.type` of a chunk resource: `'trash'` and `'metal'` get special
drawings, anything else is the brown circle. -/
inductive ResourceKind
  | trash
  | metal
  | other
deriving DecidableEq

/-- One element of `data.resources` in a chunk-load message. -/
structure ResourceData where
  x : ℚ
  y : ℚ
  kind : ResourceKind
deriving DecidableEq

/-- One element of `data.buildings` in a chunk message, as read by
`_createBuildingSprite`. -/
structure BuildingData where
  id : Int
  typeCode : String
  x : ℚ
  y : ℚ
  width : ℚ
  height : ℚ
  hp : ℚ
  maxHp : ℚ
  isBuilt : Bool
deriving DecidableEq

/-- A chunk-load message (`chunk_x, chunk_y, seed, terrain, resources,
buildings`).  `seed = 0` stands for a missing or zero seed, both falsy in
`data.seed || fallback`. -/
structure ChunkData where
  chunkX : Int
  chunkY : Int
  seed : Int
  terrain : List (List Nat)
  resources : List ResourceData
  buildings : List BuildingData
deriving DecidableEq

/-- Model of `this.chunks[key]` — `{sprite, textureKey, resourceSprites,
buildingSprites, _buildings}`.  Sprite construction in `loadChunk` is
deterministic in the message, so each sprite is embedded by its
construction inputs (the rendered canvas by the `(terrain, seed)` pair
fed to `renderChunk`, resource/building sprites by their data). -/
structure LoadedChunk where
  spriteX : ℚ
  spriteY : ℚ
  textureKey : String
  canvasTerrain : List (List Nat)
  canvasSeed : Int
  resourceSprites : List ResourceData
  buildingSprites : List BuildingData
  buildings : List BuildingData
deriving DecidableEq

/-! ## WorldGameManager state -/

/-- The fields of `WorldGameManager` touched by the embedded operations.
`sceneReady` stands for `this.scene !== null` as well as
`this.sceneReady`; both are set together at the top of `create()`.
(Input-sampling fields live in `InputState` below; camera, minimap, HUD
and clan-base visuals are out-of-scope rendering state.) -/
structure WorldState where
  myId : Int
  sceneReady : Bool
  players : Store Int PlayerEntity
  zombies : Store Int ZombieEntity
  projectiles : Store Int ProjectileEntity
  chunks : Store (Int × Int) LoadedChunk
  pendingChunks : List ChunkData
deriving DecidableEq

namespace WorldGameManager

/-! ## Snapshot reconciliation (`updateState`, `world.js` 893-943) -/

/-- One iteration of the players loop of `updateState`:
`if (this.players[pd.id]) this.updatePlayer(pd) else this.createPlayer(pd)`. -/
def playerDispatch (s : Store Int PlayerEntity) (d : PlayerData) :
    Store Int PlayerEntity :=
  match s.find d.id with
  | some _ => updatePlayer s d
  | none => createPlayer s d

/-- One iteration of the zombies loop of `updateState`. -/
def zombieDispatch (M : MathFns) (ready : Bool) (s : Store Int ZombieEntity)
    (d : ZombieData) : Store Int ZombieEntity :=
  match s.find d.id with
  | some _ => updateZombie M ready s d
  | none => createZombie ready s d

/-- One iteration of the projectiles loop of `updateState`. -/
def projectileDispatch (s : Store Int ProjectileEntity) (d : ProjectileData) :
    Store Int ProjectileEntity :=
  match s.find d.id with
  | some _ => updateProjectile s d
  | none => createProjectile s d

/-- The players section of `updateState`: the update-or-create loop over
`state.players`, then removal of every stored id absent from the
snapshot's id set (`activeIds.has(parseInt(id))`). -/
def reconcilePlayers (s : Store Int PlayerEntity) (l : List PlayerData) :
    Store Int PlayerEntity :=
  (l.foldl playerDispatch s).filter fun e => l.any fun pd => pd.id == e.1

/-- The zombies section of `updateState`: the update-or-create loop over
`state.zombies`, then removal of every stored id absent from the
snapshot. -/
def reconcileZombies (M : MathFns) (ready : Bool) (s : Store Int ZombieEntity)
    (l : List ZombieData) : Store Int ZombieEntity :=
  (l.foldl (zombieDispatch M ready) s).filter fun e => l.any fun zd => zd.id == e.1

/-- The projectiles section of `updateState`. -/
def reconcileProjectiles (s : Store Int ProjectileEntity)
    (l : List ProjectileData) : Store Int ProjectileEntity :=
  (l.foldl projectileDispatch s).filter fun e => l.any fun pd => pd.id == e.1

/-- Model of `updateState(state)`: bail out when the scene does not exist yet;
otherwise reconcile the three class stores.  The trailing
turret/gate/ground-drop/HUD/event sections act on disjoint state. -/
def updateState (M : MathFns) (st : WorldState) (snap : WorldSnapshot) :
    WorldState :=
  if st.sceneReady = false then st
  else
    { st with
      players := reconcilePlayers st.players snap.players
      zombies := reconcileZombies M st.sceneReady st.zombies snap.zombies
      projectiles := reconcileProjectiles st.projectiles snap.projectiles }

/-! ## Render-frame interpolation (`update(time, delta)`, `world.js`
227-277) -/

/-- Model of `Phaser.Math.Linear(p0, p1, t) = (p1 - p0) * t + p0`. -/
def phaserLinear (p0 p1 t : ℚ) : ℚ := (p1 - p0) * t + p0

/-- Fixed smoothing constant 0.2 used for player sprites. -/
def playerLerpAlpha : ℚ := 2/10

/-- Fixed smoothing constant 0.15 used for zombie sprites. -/
def zombieLerpAlpha : ℚ := 15/100

/-- Body of the per-player frame step: lerp the sprite toward the target
with factor 0.2 and move the name label, health bar and armor ring with
it. -/
def stepPlayerFrame (p : PlayerEntity) : PlayerEntity :=
  let nx := phaserLinear p.sprite.x p.targetX playerLerpAlpha
  let ny := phaserLinear p.sprite.y p.targetY playerLerpAlpha
  { p with
    sprite := { p.sprite with x := nx, y := ny }
    nameText := { p.nameText with x := nx, y := ny - 30 }
    healthBar := { p.healthBar with x := nx - 20, y := ny - 24 }
    armorRing :=
      match p.armorRing with
      | some r => some { r with x := nx, y := ny }
      | none => none }

/-- Body of the per-zombie frame step: lerp the sprite toward the target
with factor 0.15 and move the indicator and health bar with it. -/
def stepZombieFrame (z : ZombieEntity) : ZombieEntity :=
  let nx := phaserLinear z.sprite.x z.targetX zombieLerpAlpha
  let ny := phaserLinear z.sprite.y z.targetY zombieLerpAlpha
  { z with
    sprite := { z.sprite with x := nx, y := ny }
    indicator := { x := nx, y := ny }
    healthBar :=
      match z.healthBar with
      | some hb => some { hb with x := nx - z.size, y := ny - z.size - 8 }
      | none => none }

/-- Render-frame callback `update(time, delta)` on the entity stores: the
whole player loop (and the camera follow) runs only under
`if (me && me.targetX !== undefined)` where `me = this.players[this.myId]`;
the zombie loop runs unconditionally; projectiles are not touched.
`targetX` is always defined in the embedding (every entity is built by
`createX`, which sets it), so the per-entity `targetX !== undefined`
guards are identically true.  The camera scroll and minimap are
out-of-scope rendering state. -/
def update (st : WorldState) : WorldState :=
  let players1 :=
    match st.players.find st.myId with
    | some _ => st.players.map fun e => (e.1, stepPlayerFrame e.2)
    | none => st.players
  let zombies1 := st.zombies.map fun e => (e.1, stepZombieFrame e.2)
  { st with players := players1, zombies := zombies1 }

/-! ## Chunk streaming (`loadChunk`, the drain in `create`) -/

/-- Model of `CHUNK_SIZE = TILE_SIZE * TILES_PER_CHUNK = 1024`. -/
def CHUNK_SIZE : ℚ := 1024

/-- Model of `key = chunk_x + "," + chunk_y` — embedded as the integer pair, which
the comma-separated string represents injectively. -/
def chunkKey (d : ChunkData) : Int × Int := (d.chunkX, d.chunkY)

/-- The chunk record built by the ready-path of `loadChunk(data)`:
the texture canvas from `renderChunk(data.terrain, chunkSeed)` with
`chunkSeed = data.seed || (chunk_x * 7919 + chunk_y * 6271)`, the image
sprite centred on the chunk, resource and building sprites from the
message lists, and `_buildings`. -/
def buildChunk (d : ChunkData) : LoadedChunk :=
  let chunkSeed :=
    if d.seed = 0 then d.chunkX * 7919 + d.chunkY * 6271 else d.seed
  { spriteX := (d.chunkX : ℚ) * CHUNK_SIZE + CHUNK_SIZE / 2
    spriteY := (d.chunkY : ℚ) * CHUNK_SIZE + CHUNK_SIZE / 2
    textureKey := "chunk_" ++ toString d.chunkX ++ "_" ++ toString d.chunkY
    canvasTerrain := d.terrain
    canvasSeed := chunkSeed
    resourceSprites := d.resources
    buildingSprites := d.buildings
    buildings := d.buildings }

/-- The ready-path of `loadChunk` on the chunk table: ignore a key that
is already loaded (`if (this.chunks[key]) return`), otherwise install the
built chunk. -/
def installChunk (c : Store (Int × Int) LoadedChunk) (d : ChunkData) :
    Store (Int × Int) LoadedChunk :=
  if (c.find (chunkKey d)).isSome then c
  else c.set (chunkKey d) (buildChunk d)

/-- Model of `loadChunk(data)`: buffer the message while the scene is not ready;
once ready, apply it to the chunk table. -/
def loadChunk (st : WorldState) (d : ChunkData) : WorldState :=
  if st.sceneReady = false then
    { st with pendingChunks := st.pendingChunks ++ [d] }
  else { st with chunks := installChunk st.chunks d }

/-- The part of the scene `create()` callback acting on embedded state:
mark the scene ready, then replay every buffered chunk-load message in
arrival order and clear the buffer. -/
def create (st : WorldState) : WorldState :=
  let st1 := { st with sceneReady := true }
  let st2 := st.pendingChunks.foldl loadChunk st1
  { st2 with pendingChunks := [] }

end WorldGameManager


/-! ## Input sampling (`sendInput`, `world.js` 279-354, with the
custom-touch `DualJoystick`) -/

/-- The keyboard keys read by `sendInput` from `this.keys` (any other key
code is never read). -/
structure Keys where
  keyW : Bool
  keyS : Bool
  keyA : Bool
  keyD : Bool
  arrowLeft : Bool
  arrowRight : Bool
  arrowUp : Bool
  arrowDown : Bool
  slash : Bool
deriving DecidableEq

/-- All keys released. -/
def Keys.none : Keys :=
  { keyW := false, keyS := false, keyA := false, keyD := false,
    arrowLeft := false, arrowRight := false, arrowUp := false,
    arrowDown := false, slash := false }

/-- The touch `DualJoystick` state read by `sendInput`: `moveVector`,
`aimVector`, `shooting` and `rightTouch` (the active touch identifier of
the aim stick, `null` when released).  `aimVector` starts at `(0, -1)`
(aim up) and keeps its last direction when the stick is released. -/
structure JoyState where
  moveX : ℚ
  moveY : ℚ
  aimX : ℚ
  aimY : ℚ
  shooting : Bool
  rightTouch : Option Int
deriving DecidableEq

/-- Model of `DualJoystick` constructor state. -/
def JoyState.initial : JoyState :=
  { moveX := 0, moveY := 0, aimX := 0, aimY := -1, shooting := false,
    rightTouch := none }

/-- The input-sampling fields of `WorldGameManager`
(`keys`, `aimAngle`, `_lastAimX/_lastAimY`, `inputSeq`, the joystick)
plus the connection flag `window.VELLA.ws?.isConnected`.  The joystick is
always present when `sendInput` runs: the 50 ms send timer is created in
`create()` after `this.joystick = new DualJoystick()`. -/
structure InputState where
  connected : Bool
  keys : Keys
  joystick : JoyState
  aimAngle : ℚ
  lastAim : Option (ℚ × ℚ)
  inputSeq : Int
deriving DecidableEq

/-- The `world_input` message assembled by `sendInput`. -/
structure InputCommand where
  seq : Int
  moveX : ℚ
  moveY : ℚ
  aimX : ℚ
  aimY : ℚ
  shooting : Bool
  reload : Bool
deriving DecidableEq

namespace WorldGameManager

/-- WASD x-axis before normalization (`KeyA` −1, `KeyD` +1). -/
def kbMoveRawX (k : Keys) : ℚ :=
  (if k.keyA then -1 else 0) + (if k.keyD then 1 else 0)

/-- WASD y-axis before normalization (`KeyW || KeyW` −1, `KeyS` +1 — the
duplicated `KeyW` test is in the source). -/
def kbMoveRawY (k : Keys) : ℚ :=
  (if k.keyW || k.keyW then -1 else 0) + (if k.keyS then 1 else 0)

/-- Keyboard move vector, divided by `Math.sqrt(x² + y²)` when both axes
are active. -/
def kbMove (M : MathFns) (k : Keys) : ℚ × ℚ :=
  let x := kbMoveRawX k
  let y := kbMoveRawY k
  if x ≠ 0 ∧ y ≠ 0 then
    let len := M.sqrt (x * x + y * y)
    (x / len, y / len)
  else (x, y)

/-- Arrow-key updates to `this.aimAngle`: Left/Right rotate by 0.06 rad,
Up/Down snap to `∓π/2`. -/
def nextAimAngle (M : MathFns) (k : Keys) (a : ℚ) : ℚ :=
  let a1 := if k.arrowLeft then a - 6/100 else a
  let a2 := if k.arrowRight then a1 + 6/100 else a1
  let a3 := if k.arrowUp then -M.piDiv2 else a2
  if k.arrowDown then M.piDiv2 else a3

/-- Model of `hasKeyboard` — true when the (already normalized) keyboard move
vector is nonzero, the fire key (`Slash`) is held, or an arrow key is
held. -/
def hasKeyboard (M : MathFns) (k : Keys) : Bool :=
  decide ((kbMove M k).1 ≠ 0) || decide ((kbMove M k).2 ≠ 0) || k.slash ||
    k.arrowLeft || k.arrowRight || k.arrowUp || k.arrowDown

/-- Model of `sendInput()`: bail out when the socket is not connected; otherwise
fuse keyboard and joystick into one `world_input` message.  Movement:
keyboard wins whenever `hasKeyboard`.  Aim priority: keyboard arrows >
held right joystick (`rightTouch !== null`) > movement direction (when
the move vector exceeds 0.1 on an axis) > last known aim > zero vector.
Returns the updated fields and the message sent. -/
def sendInput (M : MathFns) (st : InputState) :
    InputState × Option InputCommand :=
  if st.connected = false then (st, none)
  else
    let joy := st.joystick
    let kb := kbMove M st.keys
    let newAngle := nextAimAngle M st.keys st.aimAngle
    let kbShooting := st.keys.slash
    let hasKb := hasKeyboard M st.keys
    let moveX := if hasKb then kb.1 else joy.moveX
    let moveY := if hasKb then kb.2 else joy.moveY
    let shooting := kbShooting || joy.shooting
    let aim :=
      if hasKb then
        (M.cos newAngle, M.sin newAngle, st.lastAim)
      else if joy.rightTouch.isSome then
        (joy.aimX, joy.aimY, some (joy.aimX, joy.aimY))
      else if 1/10 < |moveX| ∨ 1/10 < |moveY| then
        let len := M.sqrt (moveX * moveX + moveY * moveY)
        (moveX / len, moveY / len, some (moveX / len, moveY / len))
      else
        match st.lastAim with
        | some (lx, ly) => (lx, ly, st.lastAim)
        | none => ((0 : ℚ), (0 : ℚ), st.lastAim)
    let seq := st.inputSeq + 1
    ({ st with aimAngle := newAngle, lastAim := aim.2.2, inputSeq := seq },
     some { seq := seq, moveX := moveX, moveY := moveY,
            aimX := aim.1, aimY := aim.2.1, shooting := shooting,
            reload := false })

end WorldGameManager

/-! ## Transport (`network/WebSocketManager.js`) -/

/-- Model of `WebSocket.readyState`. -/
inductive WSReadyState
  | connecting
  | opened
  | closing
  | closed
deriving DecidableEq

/-- The `WebSocketManager` fields relevant to reconnect policy and
sending.  `ws = none` is a `null` socket; `ws = some r` a socket whose
`readyState` is `r`.  The listeners table is not state the claims touch;
emitted events are returned explicitly by each operation. -/
structure WebSocketManager where
  url : String
  ws : Option WSReadyState
  reconnectAttempts : Nat
  maxReconnectAttempts : Nat
  reconnectDelay : Nat
deriving DecidableEq

namespace WebSocketManager

/-- Model of `new WebSocketManager(url)`. -/
def init (url : String) : WebSocketManager :=
  { url := url, ws := none, reconnectAttempts := 0,
    maxReconnectAttempts := 5, reconnectDelay := 1000 }

/-- Result of running the `ws.onclose` handler: the new manager state,
the event tags emitted synchronously, whether a `connect()` was scheduled
and with which delay (`reconnectDelay * attempts`, linear in the attempt
count). -/
structure CloseResult where
  st : WebSocketManager
  emitted : List String
  scheduledReconnect : Bool
  delayMs : Nat
deriving DecidableEq

/-- The `ws.onclose` handler: emit `close`; schedule a reconnect only
while `reconnectAttempts < maxReconnectAttempts`. -/
def handleClose (m : WebSocketManager) : CloseResult :=
  if m.reconnectAttempts < m.maxReconnectAttempts then
    { st := { m with reconnectAttempts := m.reconnectAttempts + 1 }
      emitted := ["close"]
      scheduledReconnect := true
      delayMs := m.reconnectDelay * (m.reconnectAttempts + 1) }
  else
    { st := m, emitted := ["close"], scheduledReconnect := false,
      delayMs := 0 }

/-- Result of `send(data)`: the (unchanged) manager state, the payload
forwarded to the socket if any, and the event tags emitted. -/
structure SendResult where
  st : WebSocketManager
  sent : Option String
  emitted : List String
deriving DecidableEq

/-- Model of `send(data)`: forward to the socket only when `this.ws` exists and
its `readyState` is `OPEN`; otherwise do nothing — the message is
dropped, nothing is queued, no exception is raised and no event is
emitted. -/
def send (m : WebSocketManager) (data : String) : SendResult :=
  if m.ws = some .opened then { st := m, sent := some data, emitted := [] }
  else { st := m, sent := none, emitted := [] }

/-- Model of `disconnect()`: mark the attempt budget as spent
(`reconnectAttempts = maxReconnectAttempts`) and close the socket. -/
def disconnect (m : WebSocketManager) : WebSocketManager :=
  { m with reconnectAttempts := m.maxReconnectAttempts, ws := none }

end WebSocketManager


/-! ## Generic lemmas about the update-or-create fold -/

section ReconcileFold

variable {δ ε : Type}

theorem fold_exists_mem_of_exists_mem (gid : δ → Int)
    (after : Option ε → δ → ε) (step : Store Int ε → δ → Store Int ε)
    (hstep : ∀ s d, step s d = s.set (gid d) (after (s.find (gid d)) d))
    (l : List δ) (s : Store Int ε) (k : Int)
    (h : ∃ w, (k, w) ∈ s) : ∃ w, (k, w) ∈ l.foldl step s := by
  induction l generalizing s with
  | nil => simpa using h
  | cons d t ih =>
    simp only [List.foldl_cons]
    refine ih _ ?_
    rw [hstep]
    exact Store.exists_mem_set_of_exists_mem _ _ _ _ h

theorem fold_exists_mem_of_mem (gid : δ → Int)
    (after : Option ε → δ → ε) (step : Store Int ε → δ → Store Int ε)
    (hstep : ∀ s d, step s d = s.set (gid d) (after (s.find (gid d)) d))
    (l : List δ) (s : Store Int ε) (d : δ)
    (hd : d ∈ l) : ∃ w, (gid d, w) ∈ l.foldl step s := by
  induction l generalizing s with
  | nil => cases hd
  | cons d0 t ih =>
    simp only [List.foldl_cons]
    rcases List.mem_cons.mp hd with h | h
    · subst h
      apply fold_exists_mem_of_exists_mem gid after step hstep
      rw [hstep]
      exact Store.exists_mem_set_self _ _ _
    · exact ih (step s d0) h

theorem fold_find_ne (gid : δ → Int)
    (after : Option ε → δ → ε) (step : Store Int ε → δ → Store Int ε)
    (hstep : ∀ s d, step s d = s.set (gid d) (after (s.find (gid d)) d))
    (l : List δ) (s : Store Int ε) (k : Int)
    (hk : k ∉ l.map gid) : (l.foldl step s).find k = s.find k := by
  induction l generalizing s with
  | nil => rfl
  | cons d t ih =>
    simp only [List.map_cons, List.mem_cons] at hk
    push_neg at hk
    simp only [List.foldl_cons]
    rw [ih (step s d) hk.2, hstep, Store.find_set_ne _ _ _ _ hk.1]

theorem fold_find_of_nodup (gid : δ → Int)
    (after : Option ε → δ → ε) (step : Store Int ε → δ → Store Int ε)
    (hstep : ∀ s d, step s d = s.set (gid d) (after (s.find (gid d)) d))
    (l : List δ) (s : Store Int ε) (d : δ)
    (hnd : (l.map gid).Nodup) (hd : d ∈ l) :
    (l.foldl step s).find (gid d) = some (after (s.find (gid d)) d) := by
  induction l generalizing s with
  | nil => cases hd
  | cons d0 t ih =>
    simp only [List.map_cons, List.nodup_cons] at hnd
    simp only [List.foldl_cons]
    rcases List.mem_cons.mp hd with h | h
    · subst h
      rw [fold_find_ne gid after step hstep t _ _ hnd.1, hstep,
        Store.find_set_self]
    · have hne : gid d ≠ gid d0 := by
        intro hc
        exact hnd.1 (hc ▸ List.mem_map_of_mem gid h)
      have hfind : (step s d0).find (gid d) = s.find (gid d) := by
        rw [hstep, Store.find_set_ne _ _ _ _ hne]
      rw [ih (step s d0) hnd.2 h, hfind]

theorem fold_keys_nodup (gid : δ → Int)
    (after : Option ε → δ → ε) (step : Store Int ε → δ → Store Int ε)
    (hstep : ∀ s d, step s d = s.set (gid d) (after (s.find (gid d)) d))
    (l : List δ) (s : Store Int ε)
    (h : s.keys.Nodup) : (l.foldl step s).keys.Nodup := by
  induction l generalizing s with
  | nil => exact h
  | cons d t ih =>
    simp only [List.foldl_cons]
    refine ih _ ?_
    rw [hstep]
    exact Store.keys_nodup_set _ _ _ h

end ReconcileFold

namespace WorldGameManager

/-- The entity one players-loop iteration stores for `d`: update in place
when the id is known, create otherwise. -/
def playerAfter : Option PlayerEntity → PlayerData → PlayerEntity
  | some p, d => updatePlayerEntity p d
  | none, d => newPlayerEntity d

theorem playerDispatch_shape (s : Store Int PlayerEntity) (d : PlayerData) :
    playerDispatch s d = s.set d.id (playerAfter (s.find d.id) d) := by
  cases h : s.find d.id <;>
    simp [playerDispatch, updatePlayer, createPlayer, playerAfter, h]

/-- The entity one zombies-loop iteration stores for `d`. -/
def zombieAfter (M : MathFns) : Option ZombieEntity → ZombieData → ZombieEntity
  | some z, d => updateZombieEntity M z d
  | none, d => newZombieEntity d

theorem zombieDispatch_shape (M : MathFns) (s : Store Int ZombieEntity)
    (d : ZombieData) :
    zombieDispatch M true s d = s.set d.id (zombieAfter M (s.find d.id) d) := by
  cases h : s.find d.id <;>
    simp [zombieDispatch, updateZombie, createZombie, zombieAfter, h]

/-- The entity one projectiles-loop iteration stores for `d`. -/
def projectileAfter : Option ProjectileEntity → ProjectileData → ProjectileEntity
  | some pr, d =>
      { pr with sprite := { pr.sprite with x := d.x, y := d.y }, data := d }
  | none, d => newProjectileEntity d

theorem projectileDispatch_shape (s : Store Int ProjectileEntity)
    (d : ProjectileData) :
    projectileDispatch s d = s.set d.id (projectileAfter (s.find d.id) d) := by
  cases h : s.find d.id <;>
    simp [projectileDispatch, updateProjectile, createProjectile,
      projectileAfter, h]

end WorldGameManager


theorem fold_filter_mem_iff {δ ε : Type} (gid : δ → Int)
    (after : Option ε → δ → ε) (step : Store Int ε → δ → Store Int ε)
    (hstep : ∀ s d, step s d = s.set (gid d) (after (s.find (gid d)) d))
    (l : List δ) (s : Store Int ε) (i : Int) :
    ((Store.find ((l.foldl step s).filter fun e => l.any fun d => gid d == e.1)
        i).isSome = true)
      ↔ i ∈ l.map gid := by
  rw [Store.find_isSome_iff_exists_mem]
  constructor
  · rintro ⟨v, hv⟩
    have h := (List.mem_filter.mp hv).2
    simp only [List.any_eq_true, beq_iff_eq] at h
    obtain ⟨d, hd, hid⟩ := h
    exact List.mem_map.mpr ⟨d, hd, hid⟩
  · intro hi
    obtain ⟨d, hd, hid⟩ := List.mem_map.mp hi
    obtain ⟨w, hw⟩ := fold_exists_mem_of_mem gid after step hstep l s d hd
    rw [hid] at hw
    refine ⟨w, List.mem_filter.mpr ⟨hw, ?_⟩⟩
    simp only [List.any_eq_true, beq_iff_eq]
    exact ⟨d, hd, hid⟩

namespace WorldGameManager

/-- Running `updateState` with the scene present: the guard falls through and the
three stores are reconciled. -/
theorem updateState_ready (M : MathFns) (st : WorldState)
    (snap : WorldSnapshot) (hs : st.sceneReady = true) :
    updateState M st snap =
      { st with
        players := reconcilePlayers st.players snap.players
        zombies := reconcileZombies M true st.zombies snap.zombies
        projectiles := reconcileProjectiles st.projectiles snap.projectiles } := by
  rw [updateState, if_neg (by simp [hs]), hs]

theorem reconcilePlayers_mem_iff (s : Store Int PlayerEntity)
    (l : List PlayerData) (i : Int) :
    (((reconcilePlayers s l).find i).isSome = true) ↔
      i ∈ l.map PlayerData.id :=
  fold_filter_mem_iff PlayerData.id playerAfter playerDispatch
    playerDispatch_shape l s i

theorem reconcileZombies_mem_iff (M : MathFns) (s : Store Int ZombieEntity)
    (l : List ZombieData) (i : Int) :
    (((reconcileZombies M true s l).find i).isSome = true) ↔
      i ∈ l.map ZombieData.id :=
  fold_filter_mem_iff ZombieData.id (zombieAfter M) (zombieDispatch M true)
    (zombieDispatch_shape M) l s i

theorem reconcileProjectiles_mem_iff (s : Store Int ProjectileEntity)
    (l : List ProjectileData) (i : Int) :
    (((reconcileProjectiles s l).find i).isSome = true) ↔
      i ∈ l.map ProjectileData.id :=
  fold_filter_mem_iff ProjectileData.id projectileAfter projectileDispatch
    projectileDispatch_shape l s i

end WorldGameManager

/-- C1: for every snapshot processed by `updateState` with the scene
present, each class store holds exactly the ids of the corresponding
snapshot list afterward — every snapshot id is held locally and every
locally held id absent from the snapshot has been removed in the same
call. -/
theorem claim1_reconcile_id_sets (M : MathFns) (st : WorldState)
    (snap : WorldSnapshot) (hs : st.sceneReady = true) :
    (∀ i : Int,
      (((WorldGameManager.updateState M st snap).players.find i).isSome = true)
        ↔ i ∈ snap.players.map PlayerData.id) ∧
    (∀ i : Int,
      (((WorldGameManager.updateState M st snap).zombies.find i).isSome = true)
        ↔ i ∈ snap.zombies.map ZombieData.id) ∧
    (∀ i : Int,
      (((WorldGameManager.updateState M st snap).projectiles.find i).isSome
          = true)
        ↔ i ∈ snap.projectiles.map ProjectileData.id) := by
  rw [WorldGameManager.updateState_ready M st snap hs]
  exact ⟨fun i => WorldGameManager.reconcilePlayers_mem_iff _ _ i,
    fun i => WorldGameManager.reconcileZombies_mem_iff M _ _ i,
    fun i => WorldGameManager.reconcileProjectiles_mem_iff _ _ i⟩

/-- An arbitrary interpretation of the symbolic `Math` functions, used to
instantiate witnesses. -/
def someMath : MathFns :=
  { sqrt := fun q => q, cos := fun q => q, sin := fun q => q,
    atan2 := fun a b => a + b, piDiv2 := 157/100 }

/-- A live player snapshot element. -/
def wPlayerData : PlayerData :=
  { id := 1, x := 100, y := 100, hp := 100, maxHp := 100, isDead := false,
    shooting := false, aimAngle := 0, armor := 0 }

/-- A snapshot carrying exactly player 1. -/
def wSnapshot : WorldSnapshot :=
  { players := [wPlayerData], zombies := [], projectiles := [] }

/-- A scene-ready world with empty stores. -/
def wReadyWorld : WorldState :=
  { myId := 1, sceneReady := true, players := [], zombies := [],
    projectiles := [], chunks := [], pendingChunks := [] }

theorem claim1_reconcile_id_sets_witness :
    wReadyWorld.sceneReady = true ∧
    ((((WorldGameManager.updateState someMath wReadyWorld wSnapshot).players.find
          1).isSome = true)
      ↔ (1 : Int) ∈ wSnapshot.players.map PlayerData.id) :=
  ⟨rfl, (claim1_reconcile_id_sets someMath wReadyWorld wSnapshot rfl).1 1⟩


/-- C10: a full-state snapshot arriving before the scene exists is
discarded in its entirety — `updateState` returns immediately, so the
whole state (entity stores included) is unchanged and, unlike chunk
loads, nothing is buffered. -/
theorem claim10_pre_scene_snapshot_dropped (M : MathFns) (st : WorldState)
    (snap : WorldSnapshot) (hs : st.sceneReady = false) :
    WorldGameManager.updateState M st snap = st := by
  rw [WorldGameManager.updateState, if_pos hs]

/-- The `wReadyWorld` state before `create()` ran. -/
def wNotReadyWorld : WorldState := { wReadyWorld with sceneReady := false }

theorem claim10_pre_scene_snapshot_dropped_witness :
    wNotReadyWorld.sceneReady = false ∧
    WorldGameManager.updateState someMath wNotReadyWorld wSnapshot =
      wNotReadyWorld :=
  ⟨rfl, claim10_pre_scene_snapshot_dropped someMath wNotReadyWorld wSnapshot rfl⟩

/-! ## Interpolation (claim C3) -/

/-- One render-frame interpolation step on a 2-D position:
`renderPosition ← lerp(renderPosition, targetPosition, α)` per axis, as
applied by `update` via `Phaser.Math.Linear`. -/
def interpStep (α : ℚ) (tgt p : ℚ × ℚ) : ℚ × ℚ :=
  (WorldGameManager.phaserLinear p.1 tgt.1 α,
   WorldGameManager.phaserLinear p.2 tgt.2 α)

/-- Iterating the interpolation step `n` times toward a fixed target. -/
def interpIter (α : ℚ) (tgt p : ℚ × ℚ) : ℕ → ℚ × ℚ
  | 0 => p
  | n + 1 => interpStep α tgt (interpIter α tgt p n)

/-- Squared Euclidean distance. -/
def dist2 (p q : ℚ × ℚ) : ℚ := (p.1 - q.1) ^ 2 + (p.2 - q.2) ^ 2

theorem interpStep_fst_sub (α : ℚ) (tgt p : ℚ × ℚ) :
    (interpStep α tgt p).1 - tgt.1 = (1 - α) * (p.1 - tgt.1) := by
  simp only [interpStep, WorldGameManager.phaserLinear]
  ring

theorem interpStep_snd_sub (α : ℚ) (tgt p : ℚ × ℚ) :
    (interpStep α tgt p).2 - tgt.2 = (1 - α) * (p.2 - tgt.2) := by
  simp only [interpStep, WorldGameManager.phaserLinear]
  ring

theorem dist2_interpStep (α : ℚ) (tgt p : ℚ × ℚ) :
    dist2 (interpStep α tgt p) tgt = (1 - α) ^ 2 * dist2 p tgt := by
  simp only [dist2]
  rw [interpStep_fst_sub, interpStep_snd_sub]
  ring

/-- C3: with either class constant (0.2 for players, 0.15 for zombies),
repeated application of the per-frame step with a fixed target strictly
decreases the (squared) distance to the target while it is nonzero, and
never overshoots: on each axis the new position stays on the same side of
the target and no farther from it. -/
theorem claim3_interp_monotone_no_overshoot (α : ℚ)
    (hα : α = WorldGameManager.playerLerpAlpha ∨
          α = WorldGameManager.zombieLerpAlpha)
    (tgt p : ℚ × ℚ) (n : ℕ) :
    (interpIter α tgt p n ≠ tgt →
      dist2 (interpIter α tgt p (n + 1)) tgt
        < dist2 (interpIter α tgt p n) tgt) ∧
    (0 ≤ (tgt.1 - (interpIter α tgt p (n + 1)).1)
        * (tgt.1 - (interpIter α tgt p n).1) ∧
     0 ≤ (tgt.2 - (interpIter α tgt p (n + 1)).2)
        * (tgt.2 - (interpIter α tgt p n).2)) ∧
    (((interpIter α tgt p (n + 1)).1 - tgt.1) ^ 2
        ≤ ((interpIter α tgt p n).1 - tgt.1) ^ 2 ∧
     ((interpIter α tgt p (n + 1)).2 - tgt.2) ^ 2
        ≤ ((interpIter α tgt p n).2 - tgt.2) ^ 2) := by
  have hα01 : 0 < α ∧ α < 1 := by
    rcases hα with h | h <;> rw [h] <;>
      constructor <;>
      norm_num [WorldGameManager.playerLerpAlpha,
        WorldGameManager.zombieLerpAlpha]
  have h1 : 0 < 1 - α := by linarith [hα01.2]
  have h2 : 1 - α < 1 := by linarith [hα01.1]
  set q := interpIter α tgt p n with hq
  have hiter : interpIter α tgt p (n + 1) = interpStep α tgt q := rfl
  have hsq1 : (1 - α) ^ 2 < 1 := by nlinarith
  have hsq0 : 0 < (1 - α) ^ 2 := by positivity
  refine ⟨?_, ⟨?_, ?_⟩, ?_, ?_⟩
  · intro hne
    have hcomp : q.1 ≠ tgt.1 ∨ q.2 ≠ tgt.2 := by
      by_contra hcon
      push_neg at hcon
      exact hne (Prod.ext hcon.1 hcon.2)
    have hD : 0 < dist2 q tgt := by
      rcases hcomp with h | h
      · have h5 : 0 < (q.1 - tgt.1) ^ 2 :=
          lt_of_le_of_ne (sq_nonneg _)
            (Ne.symm (pow_ne_zero 2 (sub_ne_zero.mpr h)))
        have h4 : 0 ≤ (q.2 - tgt.2) ^ 2 := sq_nonneg _
        simp only [dist2]
        linarith
      · have h5 : 0 < (q.2 - tgt.2) ^ 2 :=
          lt_of_le_of_ne (sq_nonneg _)
            (Ne.symm (pow_ne_zero 2 (sub_ne_zero.mpr h)))
        have h4 : 0 ≤ (q.1 - tgt.1) ^ 2 := sq_nonneg _
        simp only [dist2]
        linarith
    rw [hiter, dist2_interpStep]
    nlinarith [hD, hsq1]
  · rw [hiter]
    have heq : tgt.1 - (interpStep α tgt q).1 = (1 - α) * (tgt.1 - q.1) := by
      linarith [interpStep_fst_sub α tgt q]
    rw [heq]
    nlinarith [sq_nonneg (tgt.1 - q.1)]
  · rw [hiter]
    have heq : tgt.2 - (interpStep α tgt q).2 = (1 - α) * (tgt.2 - q.2) := by
      linarith [interpStep_snd_sub α tgt q]
    rw [heq]
    nlinarith [sq_nonneg (tgt.2 - q.2)]
  · rw [hiter, interpStep_fst_sub]
    calc ((1 - α) * (q.1 - tgt.1)) ^ 2
        = (1 - α) ^ 2 * (q.1 - tgt.1) ^ 2 := by ring
      _ ≤ 1 * (q.1 - tgt.1) ^ 2 :=
          mul_le_mul_of_nonneg_right (le_of_lt hsq1) (sq_nonneg _)
      _ = (q.1 - tgt.1) ^ 2 := one_mul _
  · rw [hiter, interpStep_snd_sub]
    calc ((1 - α) * (q.2 - tgt.2)) ^ 2
        = (1 - α) ^ 2 * (q.2 - tgt.2) ^ 2 := by ring
      _ ≤ 1 * (q.2 - tgt.2) ^ 2 :=
          mul_le_mul_of_nonneg_right (le_of_lt hsq1) (sq_nonneg _)
      _ = (q.2 - tgt.2) ^ 2 := one_mul _

theorem claim3_interp_monotone_no_overshoot_witness :
    dist2 (interpIter WorldGameManager.playerLerpAlpha (0, 0) (1, 2) 1) (0, 0)
      < dist2 (interpIter WorldGameManager.playerLerpAlpha (0, 0) (1, 2) 0)
          (0, 0) :=
  (claim3_interp_monotone_no_overshoot WorldGameManager.playerLerpAlpha
      (Or.inl rfl) (0, 0) (1, 2) 0).1
    (by norm_num [interpIter, Prod.ext_iff])


theorem Store.find_map {κ ε : Type} [DecidableEq κ] (f : ε → ε)
    (s : Store κ ε) (k : κ) :
    Store.find (s.map fun e => (e.1, f e.2)) k = (s.find k).map f := by
  induction s with
  | nil => rfl
  | cons hd t ih =>
    obtain ⟨k0, v0⟩ := hd
    by_cases hk : k0 = k <;> simp [Store.find, hk, ih]

/-- C4 (amended): on a render frame, every zombie is stepped toward its
target; players are stepped only when the local player id is present in
the player store — when it is absent every player is skipped that frame —
and projectiles are never stepped by the frame callback (their displayed
position is snapped during reconciliation instead). -/
theorem claim4_frame_step_coverage (st : WorldState) :
    ((st.players.find st.myId).isSome = true →
      ∀ i p, st.players.find i = some p →
        (WorldGameManager.update st).players.find i =
          some (WorldGameManager.stepPlayerFrame p)) ∧
    (st.players.find st.myId = none →
      (WorldGameManager.update st).players = st.players) ∧
    (∀ i z, st.zombies.find i = some z →
      (WorldGameManager.update st).zombies.find i =
        some (WorldGameManager.stepZombieFrame z)) ∧
    (WorldGameManager.update st).projectiles = st.projectiles := by
  refine ⟨?_, ?_, ?_, rfl⟩
  · intro hme i p hip
    cases hfind : st.players.find st.myId with
    | none => rw [hfind] at hme; simp at hme
    | some me =>
      show Store.find
        (match st.players.find st.myId with
          | some _ => st.players.map fun e => (e.1, WorldGameManager.stepPlayerFrame e.2)
          | none => st.players) i = _
      rw [hfind]
      rw [Store.find_map, hip]
      rfl
  · intro hnone
    show (match st.players.find st.myId with
          | some _ => st.players.map fun e => (e.1, WorldGameManager.stepPlayerFrame e.2)
          | none => st.players) = st.players
    rw [hnone]
  · intro i z hiz
    show Store.find
      (st.zombies.map fun e => (e.1, WorldGameManager.stepZombieFrame e.2)) i = _
    rw [Store.find_map, hiz]
    rfl

/-- A player entity at rest at the origin with target `(10, 0)`. -/
def cxStalePlayer : PlayerEntity :=
  { sprite := { x := 0, y := 0, rotation := 0, alpha := 1 }
    nameText := { x := 0, y := -28, alpha := 1 }
    healthBar := { x := 0, y := 0, hp := 100, maxHp := 100, width := 40 }
    armorRing := none
    data := { id := 2, x := 10, y := 0, hp := 100, maxHp := 100,
              isDead := false, shooting := false, aimAngle := 0, armor := 0 }
    targetX := 10
    targetY := 0 }

/-- A world whose local player (id 1) is not in the store, while live
player 2 is. -/
def cxWorldNoMe : WorldState :=
  { myId := 1, sceneReady := true, players := [(2, cxStalePlayer)],
    zombies := [], projectiles := [], chunks := [], pendingChunks := [] }

/-- C4 counterexample: a frame tick on `cxWorldNoMe` leaves live player 2
completely unstepped — its displayed position stays at 0 even though its
target is 10 and the interpolation step would have moved it to 2. -/
theorem claim4_frame_step_coverage_counterexample :
    (WorldGameManager.update cxWorldNoMe).players.find 2 = some cxStalePlayer ∧
    cxStalePlayer.sprite.x = 0 ∧ cxStalePlayer.targetX = 10 ∧
    WorldGameManager.phaserLinear cxStalePlayer.sprite.x cxStalePlayer.targetX
        WorldGameManager.playerLerpAlpha = 2 ∧
    cxStalePlayer.sprite.x ≠
      WorldGameManager.phaserLinear cxStalePlayer.sprite.x
        cxStalePlayer.targetX WorldGameManager.playerLerpAlpha := by
  refine ⟨rfl, rfl, rfl, ?_, ?_⟩
  · norm_num [WorldGameManager.phaserLinear, WorldGameManager.playerLerpAlpha,
      cxStalePlayer]
  · norm_num [WorldGameManager.phaserLinear, WorldGameManager.playerLerpAlpha,
      cxStalePlayer]

/-- A world containing the local player 1 and a second player 2. -/
def cxWorldWithMe : WorldState :=
  { cxWorldNoMe with
    players := [(1, cxStalePlayer), (2, cxStalePlayer)] }

theorem claim4_frame_step_coverage_witness :
    ((cxWorldWithMe.players.find cxWorldWithMe.myId).isSome = true) ∧
    (WorldGameManager.update cxWorldWithMe).players.find 2 =
      some (WorldGameManager.stepPlayerFrame cxStalePlayer) :=
  ⟨rfl, (claim4_frame_step_coverage cxWorldWithMe).1 rfl 2 cxStalePlayer rfl⟩


/-! ## Chunk buffering (claim C6) -/

namespace WorldGameManager

theorem foldl_loadChunk_not_ready (ds : List ChunkData) (st : WorldState)
    (hs : st.sceneReady = false) :
    ds.foldl loadChunk st = { st with pendingChunks := st.pendingChunks ++ ds } := by
  induction ds generalizing st with
  | nil => simp
  | cons d t ih =>
    simp only [List.foldl_cons]
    rw [loadChunk, if_pos hs,
      ih { st with pendingChunks := st.pendingChunks ++ [d] } hs]
    simp

theorem foldl_loadChunk_ready (ds : List ChunkData) (st : WorldState)
    (hs : st.sceneReady = true) :
    ds.foldl loadChunk st =
      { st with chunks := ds.foldl installChunk st.chunks } := by
  induction ds generalizing st with
  | nil => simp
  | cons d t ih =>
    simp only [List.foldl_cons]
    rw [loadChunk, if_neg (by simp [hs]),
      ih { st with chunks := installChunk st.chunks d } hs]

/-- Running `create` on a not-yet-ready state: mark ready, drain the buffer
through the ready path in arrival order, clear the buffer. -/
theorem create_drains (st : WorldState) :
    create st =
      { st with
        sceneReady := true
        chunks := st.pendingChunks.foldl installChunk st.chunks
        pendingChunks := [] } := by
  rw [create]
  rw [foldl_loadChunk_ready st.pendingChunks { st with sceneReady := true } rfl]

end WorldGameManager

/-- C6: chunk-load messages arriving before the rendering surface is
ready are buffered (FIFO, in arrival order) and applied to nothing; the
moment the surface becomes ready, the buffer is drained in arrival order
and cleared, and the loaded-chunk table ends up identical to the one
produced by the same messages arriving after readiness. -/
theorem claim6_pre_ready_buffering_refinement (st : WorldState)
    (ds : List ChunkData) (hs : st.sceneReady = false) :
    (ds.foldl WorldGameManager.loadChunk st).chunks = st.chunks ∧
    (ds.foldl WorldGameManager.loadChunk st).pendingChunks =
      st.pendingChunks ++ ds ∧
    (WorldGameManager.create (ds.foldl WorldGameManager.loadChunk st)).pendingChunks
      = [] ∧
    (WorldGameManager.create (ds.foldl WorldGameManager.loadChunk st)).chunks =
      (ds.foldl WorldGameManager.loadChunk (WorldGameManager.create st)).chunks := by
  rw [WorldGameManager.foldl_loadChunk_not_ready ds st hs]
  refine ⟨rfl, rfl, ?_, ?_⟩
  · rw [WorldGameManager.create_drains]
  · rw [WorldGameManager.create_drains, WorldGameManager.create_drains]
    rw [WorldGameManager.foldl_loadChunk_ready ds _ rfl]
    simp [List.foldl_append]

/-- A one-chunk load message for chunk `(2, 3)`. -/
def cxChunkMsg : ChunkData :=
  { chunkX := 2, chunkY := 3, seed := 7, terrain := [[0, 1], [4, 5]],
    resources := [{ x := 10, y := 20, kind := .metal }], buildings := [] }

theorem claim6_pre_ready_buffering_refinement_witness :
    wNotReadyWorld.sceneReady = false ∧
    (WorldGameManager.create
        ([cxChunkMsg].foldl WorldGameManager.loadChunk wNotReadyWorld)).chunks =
      ([cxChunkMsg].foldl WorldGameManager.loadChunk
        (WorldGameManager.create wNotReadyWorld)).chunks :=
  ⟨rfl,
    (claim6_pre_ready_buffering_refinement wNotReadyWorld [cxChunkMsg] rfl).2.2.2⟩

/-! ## Transport reconnect exhaustion (claim C5) -/

/-- C5 (amended): once `reconnectAttempts` has reached
`maxReconnectAttempts` (5 closures from a fresh manager exhaust the
budget of 5), the close handler schedules no further `connect()` and
leaves the state unchanged; `send` while the socket is not open is a
silent no-op — the message is dropped, not queued, the state does not
change, and no event at all fires on the send attempt (the `close` event
fires only from the socket's own close, never from `send`). -/
theorem claim5_send_after_exhaustion (m : WebSocketManager) (msg : String)
    (hA : m.maxReconnectAttempts ≤ m.reconnectAttempts)
    (hw : m.ws ≠ some WSReadyState.opened) :
    m.handleClose.scheduledReconnect = false ∧
    m.handleClose.st = m ∧
    (m.send msg).st = m ∧
    (m.send msg).sent = none ∧
    (m.send msg).emitted = [] ∧
    (Nat.iterate (fun x => x.handleClose.st) 5
        (WebSocketManager.init m.url)).reconnectAttempts =
      (WebSocketManager.init m.url).maxReconnectAttempts := by
  have hclose : m.handleClose =
      { st := m, emitted := ["close"], scheduledReconnect := false,
        delayMs := 0 } := by
    rw [WebSocketManager.handleClose, if_neg (by omega)]
  have hsend : m.send msg = { st := m, sent := none, emitted := [] } := by
    rw [WebSocketManager.send, if_neg hw]
  refine ⟨by rw [hclose], by rw [hclose], by rw [hsend], by rw [hsend],
    by rw [hsend], ?_⟩
  rfl

/-- A manager whose reconnect budget is exhausted and whose socket is
closed. -/
def cxExhaustedWSM : WebSocketManager :=
  { url := "wss://vella/ws", ws := none, reconnectAttempts := 5,
    maxReconnectAttempts := 5, reconnectDelay := 1000 }

theorem claim5_send_after_exhaustion_witness :
    cxExhaustedWSM.maxReconnectAttempts ≤ cxExhaustedWSM.reconnectAttempts ∧
    (cxExhaustedWSM.send "ping").sent = none ∧
    (cxExhaustedWSM.send "ping").emitted = [] :=
  ⟨Nat.le_refl 5,
    (claim5_send_after_exhaustion cxExhaustedWSM "ping" (Nat.le_refl 5)
      (by simp [cxExhaustedWSM])).2.2.2.1,
    (claim5_send_after_exhaustion cxExhaustedWSM "ping" (Nat.le_refl 5)
      (by simp [cxExhaustedWSM])).2.2.2.2.1⟩

/-- C5 counterexample: a `send` attempt in the exhausted, closed state
fires no event whatsoever — in particular the `closed`/`close` event does
not fire on send attempts, it fires only from the socket's close
handler. -/
theorem claim5_send_after_exhaustion_counterexample :
    (cxExhaustedWSM.send "ping").emitted = [] ∧
    (cxExhaustedWSM.send "ping").emitted ≠ ["close"] ∧
    (cxExhaustedWSM.send "ping").emitted ≠ ["closed"] ∧
    cxExhaustedWSM.handleClose.emitted = ["close"] := by
  refine ⟨rfl, ?_, ?_, rfl⟩ <;> simp [WebSocketManager.send, cxExhaustedWSM]

/-! ## Implicit create on unknown-id updates (claim C7) -/

/-- C7 (amended): during reconciliation an update referencing an unknown
id never throws, but only the zombie class treats it as an implicit
create — `updateZombie` on an unknown id (scene present) creates the
entity, while `updatePlayer` and `updateProjectile` on an unknown id
return with the store unchanged, so the entity does not exist
afterward. -/
theorem claim7_unknown_id_update (M : MathFns)
    (sP : Store Int PlayerEntity) (sZ : Store Int ZombieEntity)
    (sPr : Store Int ProjectileEntity)
    (pd : PlayerData) (zd : ZombieData) (prd : ProjectileData)
    (hP : sP.find pd.id = none) (hZ : sZ.find zd.id = none)
    (hPr : sPr.find prd.id = none) :
    WorldGameManager.updateZombie M true sZ zd =
      sZ.set zd.id (WorldGameManager.newZombieEntity zd) ∧
    ((WorldGameManager.updateZombie M true sZ zd).find zd.id).isSome = true ∧
    WorldGameManager.updatePlayer sP pd = sP ∧
    ((WorldGameManager.updatePlayer sP pd).find pd.id).isSome = false ∧
    WorldGameManager.updateProjectile sPr prd = sPr ∧
    ((WorldGameManager.updateProjectile sPr prd).find prd.id).isSome = false := by
  have hz : WorldGameManager.updateZombie M true sZ zd =
      sZ.set zd.id (WorldGameManager.newZombieEntity zd) := by
    rw [WorldGameManager.updateZombie, hZ, WorldGameManager.createZombie]
    simp
  have hp : WorldGameManager.updatePlayer sP pd = sP := by
    rw [WorldGameManager.updatePlayer, hP]
  have hpr : WorldGameManager.updateProjectile sPr prd = sPr := by
    rw [WorldGameManager.updateProjectile, hPr]
  refine ⟨hz, ?_, hp, ?_, hpr, ?_⟩
  · rw [hz, Store.find_set_self]
    rfl
  · rw [hp, hP]
    rfl
  · rw [hpr, hPr]
    rfl

/-- A projectile snapshot element. -/
def cxProjData : ProjectileData := { id := 9, x := 5, y := 6, ownerId := 1 }

/-- A zombie snapshot element. -/
def cxZombieData : ZombieData :=
  { id := 4, x := 50, y := 60, hp := 30, maxHp := 30, kind := .normal }

theorem claim7_unknown_id_update_witness :
    (Store.find ([] : Store Int PlayerEntity) wPlayerData.id = none) ∧
    ((WorldGameManager.updateZombie someMath true [] cxZombieData).find
        cxZombieData.id).isSome = true ∧
    WorldGameManager.updatePlayer [] wPlayerData = [] :=
  ⟨rfl,
    (claim7_unknown_id_update someMath [] [] [] wPlayerData cxZombieData
      cxProjData rfl rfl rfl).2.1,
    (claim7_unknown_id_update someMath [] [] [] wPlayerData cxZombieData
      cxProjData rfl rfl rfl).2.2.1⟩

/-- C7 counterexample: an update for a player id that is not in the store
is ignored — the player store stays empty and the entity does not exist
afterward (and likewise for projectiles), refuting "implicit create holds
for every entity class". -/
theorem claim7_unknown_id_update_counterexample :
    WorldGameManager.updatePlayer [] wPlayerData = ([] : Store Int PlayerEntity) ∧
    (WorldGameManager.updatePlayer [] wPlayerData).find wPlayerData.id = none ∧
    WorldGameManager.updateProjectile [] cxProjData =
      ([] : Store Int ProjectileEntity) ∧
    (WorldGameManager.updateProjectile [] cxProjData).find cxProjData.id =
      none := ⟨rfl, rfl, rfl, rfl⟩


/-! ## Input fusion (claims C8, C9) -/

namespace WorldGameManager

/-- The move vector of the command produced by a connected `sendInput`
tick: the keyboard vector when `hasKeyboard`, the joystick vector
verbatim otherwise. -/
theorem sendInput_move (M : MathFns) (st : InputState)
    (hc : st.connected = true) :
    ((sendInput M st).2.map fun c => (c.moveX, c.moveY)) =
      some (if hasKeyboard M st.keys = true
        then kbMove M st.keys
        else (st.joystick.moveX, st.joystick.moveY)) := by
  rw [sendInput, if_neg (by simp [hc])]
  by_cases hk : hasKeyboard M st.keys = true
  · simp [hk]
  · simp [hk]

end WorldGameManager

/-- C8 (amended): input fusion is all-or-nothing on the *keyboard-active*
predicate of the source (`hasKeyboard`): whenever it holds, the outgoing
move vector is exactly the keyboard-derived vector `kbMove` (in which the
joystick does not occur), with a diagonal divided by `sqrt 2`; whenever
it fails — in particular with every key released — the joystick's analog
vector is used verbatim.  With only `KeyA` held the output is exactly
`(-1, 0)` regardless of the joystick.  (`hasKeyboard` tests the *net*
keyboard movement vector, not individual keys: opposing held keys cancel
— see the counterexample.) -/
theorem claim8_keyboard_override (M : MathFns) (st : InputState)
    (hc : st.connected = true) :
    (WorldGameManager.hasKeyboard M st.keys = true →
      ((WorldGameManager.sendInput M st).2.map fun c => (c.moveX, c.moveY)) =
        some (WorldGameManager.kbMove M st.keys)) ∧
    (WorldGameManager.hasKeyboard M st.keys = false →
      ((WorldGameManager.sendInput M st).2.map fun c => (c.moveX, c.moveY)) =
        some (st.joystick.moveX, st.joystick.moveY)) ∧
    (st.keys = Keys.none → WorldGameManager.hasKeyboard M st.keys = false) ∧
    (st.keys = { Keys.none with keyA := true } →
      ((WorldGameManager.sendInput M st).2.map fun c => (c.moveX, c.moveY)) =
        some (-1, 0)) ∧
    (st.keys = { Keys.none with keyW := true, keyD := true } →
      0 < M.sqrt 2 →
      ((WorldGameManager.sendInput M st).2.map fun c => (c.moveX, c.moveY)) =
        some (1 / M.sqrt 2, -1 / M.sqrt 2)) := by
  have hmove := WorldGameManager.sendInput_move M st hc
  refine ⟨fun hk => ?_, fun hk => ?_, fun hkeys => ?_, fun hkeys => ?_,
    fun hkeys hsq => ?_⟩
  · rw [hmove, if_pos hk]
  · rw [hmove, if_neg (by simp [hk])]
  · rw [hkeys]
    simp [WorldGameManager.hasKeyboard, WorldGameManager.kbMove,
      WorldGameManager.kbMoveRawX, WorldGameManager.kbMoveRawY, Keys.none]
  · have h1 : WorldGameManager.kbMove M st.keys = (-1, 0) := by
      rw [hkeys]
      norm_num [WorldGameManager.kbMove, WorldGameManager.kbMoveRawX,
        WorldGameManager.kbMoveRawY, Keys.none]
    have h2 : WorldGameManager.hasKeyboard M st.keys = true := by
      simp only [WorldGameManager.hasKeyboard, h1, Bool.or_eq_true,
        decide_eq_true_eq]
      norm_num
    rw [hmove, if_pos h2, h1]
  · have h1 : WorldGameManager.kbMove M st.keys =
        (1 / M.sqrt 2, -1 / M.sqrt 2) := by
      rw [hkeys]
      simp only [WorldGameManager.kbMove, WorldGameManager.kbMoveRawX,
        WorldGameManager.kbMoveRawY, Keys.none]
      norm_num
    have hne : (1 : ℚ) / M.sqrt 2 ≠ 0 :=
      ne_of_gt (div_pos one_pos hsq)
    have h2 : WorldGameManager.hasKeyboard M st.keys = true := by
      simp only [WorldGameManager.hasKeyboard, h1, Bool.or_eq_true,
        decide_eq_true_eq]
      tauto
    rw [hmove, if_pos h2, h1]

/-- Keyboard state with only `KeyA` held. -/
def cxKeysA : Keys := { Keys.none with keyA := true }

/-- Input tick: `KeyA` held while the joystick is simultaneously
displaced and the aim stick held. -/
def cxInputKeyA : InputState :=
  { connected := true, keys := cxKeysA,
    joystick := { moveX := 1/2, moveY := -1/2, aimX := 1, aimY := 0,
                  shooting := false, rightTouch := some 3 },
    aimAngle := 0, lastAim := none, inputSeq := 0 }

/-- Input tick: every key released, joystick displaced to `(0.5, -0.5)`. -/
def cxInputJoyOnly : InputState :=
  { connected := true, keys := Keys.none,
    joystick := { moveX := 1/2, moveY := -1/2, aimX := 1, aimY := 0,
                  shooting := false, rightTouch := some 3 },
    aimAngle := 0, lastAim := none, inputSeq := 0 }

theorem claim8_keyboard_override_witness :
    cxInputKeyA.connected = true ∧
    ((WorldGameManager.sendInput someMath cxInputKeyA).2.map fun c =>
        (c.moveX, c.moveY)) = some (-1, 0) ∧
    ((WorldGameManager.sendInput someMath cxInputJoyOnly).2.map fun c =>
        (c.moveX, c.moveY)) = some (1/2, -1/2) := by
  refine ⟨rfl, (claim8_keyboard_override someMath cxInputKeyA rfl).2.2.2.1 rfl,
    ?_⟩
  have h3 := (claim8_keyboard_override someMath cxInputJoyOnly rfl).2.2.1 rfl
  have h2 := (claim8_keyboard_override someMath cxInputJoyOnly rfl).2.1 h3
  rw [h2]
  norm_num [cxInputJoyOnly]

/-- Input tick: `KeyW` and `KeyS` both held (both movement keys active,
net keyboard movement zero), joystick displaced to `(0.5, 0)`. -/
def cxInputWS : InputState :=
  { connected := true, keys := { Keys.none with keyW := true, keyS := true },
    joystick := { moveX := 1/2, moveY := 0, aimX := 1, aimY := 0,
                  shooting := false, rightTouch := none },
    aimAngle := 0, lastAim := none, inputSeq := 0 }

/-- C8 counterexample: with the movement keys `KeyW` and `KeyS` both
active in the tick, the outgoing move vector is the joystick's
`(0.5, 0)`, not the keyboard-derived vector (which is `(0, 0)`): the
source keys off the *net* keyboard vector, so active-but-cancelling
movement keys do not override the joystick. -/
theorem claim8_keyboard_override_counterexample :
    cxInputWS.keys.keyW = true ∧ cxInputWS.keys.keyS = true ∧
    WorldGameManager.kbMove someMath cxInputWS.keys = (0, 0) ∧
    ((WorldGameManager.sendInput someMath cxInputWS).2.map fun c =>
        (c.moveX, c.moveY)) = some (1/2, 0) ∧
    (((1 : ℚ)/2, (0 : ℚ)) ≠ ((0 : ℚ), (0 : ℚ))) := by
  have hkb : WorldGameManager.kbMove someMath cxInputWS.keys = (0, 0) := by
    norm_num [WorldGameManager.kbMove, WorldGameManager.kbMoveRawX,
      WorldGameManager.kbMoveRawY, cxInputWS, Keys.none]
  have hhk : WorldGameManager.hasKeyboard someMath cxInputWS.keys = false := by
    simp only [WorldGameManager.hasKeyboard, hkb]
    norm_num [cxInputWS, Keys.none]
  have hmove := WorldGameManager.sendInput_move someMath cxInputWS rfl
  rw [if_neg (by simp [hhk])] at hmove
  refine ⟨rfl, rfl, hkb, ?_, by norm_num [Prod.ext_iff]⟩
  rw [hmove]
  norm_num [cxInputWS]

/-- C9: on a tick where no current source supplies an aim direction — no
keyboard key active, the aim stick released (`rightTouch === null`) and
the move vector at or below the 0.1 threshold on both axes — the
outgoing aim vector is the last known aim direction, and the stored last
aim is kept unchanged; if no aim was ever established since session
start (`_lastAimX` still undefined), the outgoing aim vector degrades to
`(0, 0)`. -/
theorem claim9_aim_persistence (M : MathFns) (st : InputState)
    (hc : st.connected = true) (hk : st.keys = Keys.none)
    (hrt : st.joystick.rightTouch = none)
    (hmx : |st.joystick.moveX| ≤ 1/10) (hmy : |st.joystick.moveY| ≤ 1/10) :
    ((WorldGameManager.sendInput M st).2.map fun c => (c.aimX, c.aimY)) =
      some (match st.lastAim with
            | some v => v
            | none => ((0 : ℚ), (0 : ℚ))) ∧
    (WorldGameManager.sendInput M st).1.lastAim = st.lastAim := by
  have hkb : WorldGameManager.hasKeyboard M st.keys = false := by
    rw [hk]
    simp [WorldGameManager.hasKeyboard, WorldGameManager.kbMove,
      WorldGameManager.kbMoveRawX, WorldGameManager.kbMoveRawY, Keys.none]
  rw [WorldGameManager.sendInput, if_neg (by simp [hc])]
  simp only [hkb, Bool.false_eq_true, if_false, hrt, Option.isSome_none]
  rw [if_neg (by
    rw [not_or]
    exact ⟨not_lt.mpr hmx, not_lt.mpr hmy⟩)]
  cases hl : st.lastAim with
  | none => simp
  | some v =>
    obtain ⟨lx, ly⟩ := v
    simp

/-- An idle-input tick with a previously established aim `(3/4, -1/4)`. -/
def cxInputIdle : InputState :=
  { connected := true, keys := Keys.none, joystick := JoyState.initial,
    aimAngle := -157/100, lastAim := some (3/4, -1/4), inputSeq := 7 }

theorem claim9_aim_persistence_witness :
    cxInputIdle.connected = true ∧
    ((WorldGameManager.sendInput someMath cxInputIdle).2.map fun c =>
        (c.aimX, c.aimY)) = some (3/4, -1/4) := by
  refine ⟨rfl, ?_⟩
  have h := (claim9_aim_persistence someMath cxInputIdle rfl rfl rfl
    (by norm_num [cxInputIdle, JoyState.initial])
    (by norm_num [cxInputIdle, JoyState.initial])).1
  simpa [cxInputIdle] using h


/-! ## Reconcile idempotence (claim C2) -/

theorem foldl_fixed {α β : Type} (f : β → α → β) (b : β) (l : List α)
    (h : ∀ x ∈ l, f b x = b) : l.foldl f b = b := by
  induction l with
  | nil => rfl
  | cons x t ih =>
    simp only [List.foldl_cons, h x (List.mem_cons_self x t)]
    exact ih fun y hy => h y (List.mem_cons_of_mem x hy)

/-- Re-running one reconcile pass over its own output changes nothing,
provided the per-entity update is a fixed point on already-reconciled
entities. -/
theorem fold_filter_idem {δ ε : Type} (gid : δ → Int)
    (after : Option ε → δ → ε) (step : Store Int ε → δ → Store Int ε)
    (hstep : ∀ s d, step s d = s.set (gid d) (after (s.find (gid d)) d))
    (l : List δ) (s : Store Int ε)
    (hnd : (l.map gid).Nodup) (hkeys : s.keys.Nodup)
    (hfix : ∀ d ∈ l,
      after (some (after (s.find (gid d)) d)) d = after (s.find (gid d)) d) :
    ((l.foldl step
        ((l.foldl step s).filter fun e => l.any fun d => gid d == e.1)).filter
          fun e => l.any fun d => gid d == e.1) =
      (l.foldl step s).filter fun e => l.any fun d => gid d == e.1 := by
  set r := (l.foldl step s).filter fun e => l.any fun d => gid d == e.1
    with hr
  have hFkeys : (l.foldl step s).keys.Nodup :=
    fold_keys_nodup gid after step hstep l s hkeys
  have hrfind : ∀ d ∈ l,
      Store.find r (gid d) = some (after (s.find (gid d)) d) := by
    intro d hd
    rw [hr, Store.find_filter _ _ _ hFkeys,
      fold_find_of_nodup gid after step hstep l s d hnd hd]
    have hany : (l.any fun d0 => gid d0 == gid d) = true := by
      simp only [List.any_eq_true, beq_iff_eq]
      exact ⟨d, hd, rfl⟩
    simp [hany]
  have hstepr : ∀ d ∈ l, step r d = r := by
    intro d hd
    rw [hstep, hrfind d hd, hfix d hd]
    exact Store.set_find_self _ _ _ (hrfind d hd)
  rw [foldl_fixed step r l hstepr, hr, List.filter_filter]
  simp

namespace WorldGameManager

/-- A second `updatePlayer` with the same snapshot element is the
identity on an already-updated entity. -/
theorem updatePlayerEntity_fix (p : PlayerEntity) (d : PlayerData) :
    updatePlayerEntity (updatePlayerEntity p d) d = updatePlayerEntity p d := by
  by_cases hdead : d.isDead = true <;>
    by_cases harm : (0 : ℚ) < d.armor <;>
    cases hring : p.armorRing <;>
    simp [updatePlayerEntity, hdead, harm, hring]

theorem playerAfter_fix_of_isSome (o : Option PlayerEntity) (d : PlayerData)
    (h : o.isSome = true) :
    playerAfter (some (playerAfter o d)) d = playerAfter o d := by
  cases o with
  | none => simp at h
  | some p => exact updatePlayerEntity_fix p d

/-- Applying `updateZombie` with the same snapshot element is the identity on any
entity whose authoritative fields already come from that element. -/
theorem updateZombieEntity_fix_of (M : MathFns) (u : ZombieEntity)
    (d : ZombieData) (hdata : d = u.data) (htx : d.x = u.targetX)
    (hty : d.y = u.targetY)
    (hhb : ∀ hb, u.healthBar = some hb →
      hb.hp = d.hp ∧ hb.maxHp = d.maxHp ∧ hb.width = u.size * 2) :
    updateZombieEntity M u d = u := by
  obtain ⟨sprite, indicator, healthBar, size, ud, tX, tY⟩ := u
  simp only at hdata htx hty hhb
  subst hdata htx hty
  cases healthBar with
  | none =>
    simp only [updateZombieEntity, sub_self, abs_zero]
    norm_num
  | some hb =>
    obtain ⟨h1, h2, h3⟩ := hhb hb rfl
    have hbeq : ({ hb with hp := d.hp, maxHp := d.maxHp, width := size * 2 } :
        HealthBarState) = hb := by
      obtain ⟨bx, bby, bhp, bmax, bw⟩ := hb
      simp only at h1 h2 h3
      simp [h1, h2, h3]
    simp only [updateZombieEntity, sub_self, abs_zero, hbeq]
    norm_num

theorem zombieAfter_fix (M : MathFns) (o : Option ZombieEntity)
    (d : ZombieData) :
    zombieAfter M (some (zombieAfter M o d)) d = zombieAfter M o d := by
  cases o with
  | none =>
    show updateZombieEntity M (newZombieEntity d) d = newZombieEntity d
    apply updateZombieEntity_fix_of M _ d rfl rfl rfl
    intro hb hhb
    by_cases hk : d.kind = ZombieKind.tank ∨ d.kind = ZombieKind.boss
    · simp only [newZombieEntity, if_pos hk, Option.some.injEq] at hhb
      subst hhb
      refine ⟨rfl, rfl, ?_⟩
      show zombieDisplaySize d.kind =
        (newZombieEntity d).size * 2
      simp only [newZombieEntity]
      ring
    · simp [newZombieEntity, if_neg hk] at hhb
  | some z =>
    show updateZombieEntity M (updateZombieEntity M z d) d =
      updateZombieEntity M z d
    apply updateZombieEntity_fix_of M _ d rfl rfl rfl
    intro hb hhb
    cases hz : z.healthBar with
    | none => simp [updateZombieEntity, hz] at hhb
    | some hb0 =>
      simp only [updateZombieEntity, hz, Option.some.injEq] at hhb
      subst hhb
      exact ⟨rfl, rfl, rfl⟩

theorem projectileAfter_fix (o : Option ProjectileEntity)
    (d : ProjectileData) :
    projectileAfter (some (projectileAfter o d)) d = projectileAfter o d := by
  cases o <;> rfl

end WorldGameManager

/-- C2 (amended): reconciling the same snapshot twice (scene present,
snapshot ids and store keys duplicate-free as the server and JS object
semantics guarantee) is idempotent on the zombie and projectile stores
unconditionally, and on the entire state as soon as every player id of
the snapshot was already present in the player store before the first
call.  (A player *created* by the first call has its alpha, rotation and
armor ring first derived by the second call, so creation breaks strict
idempotence for players — see the counterexample.) -/
theorem claim2_reconcile_idempotent (M : MathFns) (st : WorldState)
    (snap : WorldSnapshot) (hs : st.sceneReady = true)
    (hndP : (snap.players.map PlayerData.id).Nodup)
    (hndZ : (snap.zombies.map ZombieData.id).Nodup)
    (hndR : (snap.projectiles.map ProjectileData.id).Nodup)
    (hkP : st.players.keys.Nodup) (hkZ : st.zombies.keys.Nodup)
    (hkR : st.projectiles.keys.Nodup) :
    ((∀ d ∈ snap.players, (st.players.find d.id).isSome = true) →
      WorldGameManager.updateState M (WorldGameManager.updateState M st snap)
          snap =
        WorldGameManager.updateState M st snap) ∧
    (WorldGameManager.updateState M (WorldGameManager.updateState M st snap)
        snap).zombies =
      (WorldGameManager.updateState M st snap).zombies ∧
    (WorldGameManager.updateState M (WorldGameManager.updateState M st snap)
        snap).projectiles =
      (WorldGameManager.updateState M st snap).projectiles := by
  have hst1 := WorldGameManager.updateState_ready M st snap hs
  have hs1 : (WorldGameManager.updateState M st snap).sceneReady = true := by
    rw [hst1]
    exact hs
  have hst2 := WorldGameManager.updateState_ready M
    (WorldGameManager.updateState M st snap) snap hs1
  have hZ2 : WorldGameManager.reconcileZombies M true
      (WorldGameManager.updateState M st snap).zombies snap.zombies =
      (WorldGameManager.updateState M st snap).zombies := by
    rw [hst1]
    show WorldGameManager.reconcileZombies M true
        (WorldGameManager.reconcileZombies M true st.zombies snap.zombies)
        snap.zombies =
      WorldGameManager.reconcileZombies M true st.zombies snap.zombies
    unfold WorldGameManager.reconcileZombies
    exact fold_filter_idem ZombieData.id (WorldGameManager.zombieAfter M)
      (WorldGameManager.zombieDispatch M true)
      (WorldGameManager.zombieDispatch_shape M) snap.zombies st.zombies hndZ
      hkZ (fun d _ => WorldGameManager.zombieAfter_fix M _ d)
  have hR2 : WorldGameManager.reconcileProjectiles
      (WorldGameManager.updateState M st snap).projectiles snap.projectiles =
      (WorldGameManager.updateState M st snap).projectiles := by
    rw [hst1]
    show WorldGameManager.reconcileProjectiles
        (WorldGameManager.reconcileProjectiles st.projectiles snap.projectiles)
        snap.projectiles =
      WorldGameManager.reconcileProjectiles st.projectiles snap.projectiles
    unfold WorldGameManager.reconcileProjectiles
    exact fold_filter_idem ProjectileData.id WorldGameManager.projectileAfter
      WorldGameManager.projectileDispatch
      WorldGameManager.projectileDispatch_shape snap.projectiles
      st.projectiles hndR hkR
      (fun d _ => WorldGameManager.projectileAfter_fix _ d)
  refine ⟨?_, by rw [hst2]; exact hZ2, by rw [hst2]; exact hR2⟩
  intro hpresent
  have hP2 : WorldGameManager.reconcilePlayers
      (WorldGameManager.updateState M st snap).players snap.players =
      (WorldGameManager.updateState M st snap).players := by
    rw [hst1]
    show WorldGameManager.reconcilePlayers
        (WorldGameManager.reconcilePlayers st.players snap.players)
        snap.players =
      WorldGameManager.reconcilePlayers st.players snap.players
    unfold WorldGameManager.reconcilePlayers
    refine fold_filter_idem PlayerData.id WorldGameManager.playerAfter
      WorldGameManager.playerDispatch WorldGameManager.playerDispatch_shape
      snap.players st.players hndP hkP ?_
    intro d hd
    exact WorldGameManager.playerAfter_fix_of_isSome _ d (hpresent d hd)
  rw [hst2, hP2, hZ2, hR2]


/-- A scene-ready world already holding player 1. -/
def wPresentWorld : WorldState :=
  { wReadyWorld with
    players := [(1, WorldGameManager.newPlayerEntity wPlayerData)] }

theorem claim2_reconcile_idempotent_witness :
    wPresentWorld.sceneReady = true ∧
    WorldGameManager.updateState someMath
        (WorldGameManager.updateState someMath wPresentWorld wSnapshot)
        wSnapshot =
      WorldGameManager.updateState someMath wPresentWorld wSnapshot := by
  refine ⟨rfl, ?_⟩
  refine (claim2_reconcile_idempotent someMath wPresentWorld wSnapshot rfl
    (by simp [wSnapshot]) (by simp [wSnapshot]) (by simp [wSnapshot])
    (by simp [Store.keys, wPresentWorld, wReadyWorld])
    (by simp [Store.keys, wPresentWorld, wReadyWorld])
    (by simp [Store.keys, wPresentWorld, wReadyWorld])).1 ?_
  intro d hd
  simp only [wSnapshot, List.mem_singleton] at hd
  subst hd
  rfl

/-- A live, armored player snapshot element. -/
def cxArmoredData : PlayerData :=
  { id := 1, x := 100, y := 100, hp := 100, maxHp := 100, isDead := false,
    shooting := false, aimAngle := 0, armor := 1 }

/-- A snapshot carrying exactly the armored player. -/
def cxArmoredSnap : WorldSnapshot :=
  { players := [cxArmoredData], zombies := [], projectiles := [] }

/-- C2 counterexample: reconciling `cxArmoredSnap` once into an empty
scene-ready world creates player 1 *without* an armor ring (and with
alpha/rotation not yet derived); reconciling the same snapshot a second
time mutates the stored entity — the armor ring appears — so the second
call does not leave the entity stores unchanged. -/
theorem claim2_reconcile_idempotent_counterexample :
    (((WorldGameManager.updateState someMath wReadyWorld
          cxArmoredSnap).players.find 1).map PlayerEntity.armorRing) =
      some none ∧
    (((WorldGameManager.updateState someMath
          (WorldGameManager.updateState someMath wReadyWorld cxArmoredSnap)
          cxArmoredSnap).players.find 1).map PlayerEntity.armorRing) =
      some (some { x := 100, y := 100, visible := true }) ∧
    WorldGameManager.updateState someMath
        (WorldGameManager.updateState someMath wReadyWorld cxArmoredSnap)
        cxArmoredSnap ≠
      WorldGameManager.updateState someMath wReadyWorld cxArmoredSnap := by
  have h1 : ((WorldGameManager.updateState someMath wReadyWorld
        cxArmoredSnap).players.find 1).map PlayerEntity.armorRing =
      some none := by
    norm_num [WorldGameManager.updateState, WorldGameManager.reconcilePlayers,
      WorldGameManager.reconcileZombies, WorldGameManager.reconcileProjectiles,
      WorldGameManager.playerDispatch, WorldGameManager.createPlayer,
      WorldGameManager.updatePlayer, WorldGameManager.newPlayerEntity,
      WorldGameManager.updatePlayerEntity, Store.find, Store.set,
      wReadyWorld, cxArmoredSnap, cxArmoredData]
  have h2 : ((WorldGameManager.updateState someMath
        (WorldGameManager.updateState someMath wReadyWorld cxArmoredSnap)
        cxArmoredSnap).players.find 1).map PlayerEntity.armorRing =
      some (some { x := 100, y := 100, visible := true }) := by
    norm_num [WorldGameManager.updateState, WorldGameManager.reconcilePlayers,
      WorldGameManager.reconcileZombies, WorldGameManager.reconcileProjectiles,
      WorldGameManager.playerDispatch, WorldGameManager.createPlayer,
      WorldGameManager.updatePlayer, WorldGameManager.newPlayerEntity,
      WorldGameManager.updatePlayerEntity, Store.find, Store.set,
      wReadyWorld, cxArmoredSnap, cxArmoredData]
  refine ⟨h1, h2, fun heq => ?_⟩
  rw [heq, h1] at h2
  simp at h2

end Vella
